import Mathlib

/-!
Verification development for the swagger backend of the stone API compiler.

The development shallowly embeds the two source files that the claims are
about:

* `src/stone/backends/swagger.stoneg.py` — the type-schema synthesizer
  (`_generate_for_datatype` and friends), the route compiler
  (`_generate_operation`, `_generate_parameters`, `_generate_responses`,
  `_generate_paths`) and the top-level per-rock generation loop; and
* `src/stone/backends/swagger_objects.py` — the serializable swagger object
  model (`Serializable.dict`, `Schema`, `Reference`, `Parameter`, ...).

Mutable state (`Context.schemas`, the definitions registry) is threaded
explicitly: every generator function takes the registry and returns the
updated one.  The Python recursion is unbounded, so the synthesizer takes a
fuel argument, consumed exactly once each time a user-defined type's schema
body is generated; all termination and divergence statements are phrased
over every fuel value.

Helpers imported from `stone.backends.helpers` (`split_words`, `fmt_pascal`)
and the IR type model of `stone.ir` are not among the sources; they are
modelled from the spec where needed and marked as such.
-/

namespace Stone

/-! ### Python string helpers -/

/-- Python `'%s' % x` for an optional string: `None` prints as `"None"`. -/
def pyStr : Option String → String
  | none => "None"
  | some s => s

/-- Python `str.capitalize`: first character upper-cased, the rest lower-cased. -/
def pyCapitalize (s : String) : String :=
  match s.toList with
  | [] => ""
  | c :: rest => String.mk (c.toUpper :: rest.map Char.toLower)

/-- Python `str.strip`: drop leading and trailing whitespace. -/
def pyStrip (s : String) : String :=
  String.mk ((s.toList.dropWhile Char.isWhitespace).reverse.dropWhile Char.isWhitespace).reverse

/-- Python truthiness of `part.strip()`: nonempty after stripping. -/
def pyTruthyStrip (s : String) : Bool :=
  !(pyStrip s).isEmpty

/-- Python `name.split(sep)` for a one-character separator; empty parts are kept. -/
def splitOnCharAux (sep : Char) (acc : List Char) : List Char → List String
  | [] => [String.mk acc.reverse]
  | c :: rest =>
    if c = sep then String.mk acc.reverse :: splitOnCharAux sep [] rest
    else splitOnCharAux sep (c :: acc) rest

/-- Python `name.split('/')`. -/
def splitOnSlash (s : String) : List String :=
  splitOnCharAux '/' [] s.toList

/-- Modelled from the spec: `split_words` from `stone.backends.helpers` is not
among the sources.  The spec says derived names are "deterministic from
namespace+route name (path separators replaced)", so a name is split into its
maximal alphanumeric runs, every non-alphanumeric character (underscore,
hyphen, path separator) acting as a separator. -/
def splitWordsAux (acc : List Char) : List Char → List String
  | [] => if acc.isEmpty then [] else [String.mk acc.reverse]
  | c :: rest =>
    if c.isAlphanum then splitWordsAux (c :: acc) rest
    else if acc.isEmpty then splitWordsAux [] rest
    else String.mk acc.reverse :: splitWordsAux [] rest

/-- Modelled from the spec: see `splitWordsAux`. -/
def splitWords (s : String) : List String :=
  splitWordsAux [] s.toList

/-- `fmt_path` (swagger.stoneg.py, lines 24-29): each `/`-separated part of the
path becomes its words capitalized and joined by spaces; the parts are joined
by `" - "`.  (`split_words` itself is spec-modelled, see `splitWords`.) -/
def fmtPath (name : String) : String :=
  String.intercalate " - "
    (((splitOnSlash name).filter pyTruthyStrip).map
      (fun part =>
        String.intercalate " "
          (((splitWords part).filter pyTruthyStrip).map pyCapitalize)))

/-- Modelled from the spec: `fmt_pascal` from `stone.backends.helpers` is not
among the sources; the spec says the operation identifier is "deterministic
from namespace+route name (path separators replaced)", i.e. PascalCase: the
capitalized words concatenated. -/
def fmtPascal (s : String) : String :=
  String.join ((splitWords s).map pyCapitalize)

/-- Python `re.match(pattern, s)` anchors the pattern at the start of the
string; for a pattern without regex metacharacters (the fragment modelled
here) this is exactly: the pattern's literal text is a prefix of `s`. -/
def reMatch (pattern s : String) : Bool :=
  pattern.isPrefixOf s

/-! ### Python `dict` as an insertion-ordered association list -/

/-- Lookup in an insertion-ordered association list (Python `d[k]` / `d.get`). -/
def lookupAssoc [BEq κ] : List (κ × α) → κ → Option α
  | [], _ => none
  | (k', v) :: rest, k => if k' == k then some v else lookupAssoc rest k

/-- Python `k in d`. -/
def containsKey [BEq κ] : List (κ × α) → κ → Bool
  | [], _ => false
  | (k', _) :: rest, k => k' == k || containsKey rest k

/-- Python `d[k] = v`: replace in place when the key is present (keeping the
original key and its position), append otherwise. -/
def dictInsert [BEq κ] : List (κ × α) → κ → α → List (κ × α)
  | [], k, v => [(k, v)]
  | (k', v') :: rest, k, v =>
    if k' == k then (k', v) :: rest else (k', v') :: dictInsert rest k v

/-- Python `d.update(d2)`: insert each entry of `d2` in order. -/
def dictUpdate [BEq κ] (base upd : List (κ × α)) : List (κ × α) :=
  upd.foldl (fun acc kv => dictInsert acc kv.1 kv.2) base

/-- How many entries of the list carry the given key. -/
def countKey [BEq κ] (l : List (κ × α)) (k : κ) : Nat :=
  (l.filter (fun kv => kv.1 == k)).length

/-- The keys of the association list are pairwise distinct (automatic for a
Python `dict`, an invariant of `dictInsert` in this model). -/
def nodupKeys (l : List (String × α)) : Prop :=
  (l.map Prod.fst).Nodup

/-! ### The IR type model

Modelled from the spec: `stone.ir` is not among the sources.  Spec §3 gives
the closed `DataType` sum: primitives (Boolean, Numeric, String, Timestamp
and Void — Void is listed among the primitives, which is also witnessed in
the sources by `_generate_primitive_type_name` handling `is_void_type` inside
the primitive branch), `Nullable(inner)`, `List(inner)` and the user-defined
structs and unions.  The Python IR is an object graph that may contain
reference cycles, so a user-defined type occurrence is represented as an
index into an environment of user-defined type definitions: distinct indices
model distinct Python objects (which may or may not share a `name`). -/

inductive DataType : Type where
  | boolean : DataType
  | numeric : DataType
  | string_ : DataType
  | timestamp : DataType
  | void : DataType
  | nullable (inner : DataType) : DataType
  | list (inner : DataType) : DataType
  | user (id : Nat) : DataType
deriving DecidableEq, Repr

/-- A struct or union field: name, doc and data type (`stone.ir`'s `Field`;
named `StoneField` here to avoid clashing with an unrelated library name). -/
structure StoneField : Type where
  name : String
  doc : Option String
  dataType : DataType
deriving DecidableEq, Repr

/-- Whether a user-defined type is a struct or a union. -/
inductive UDVariant : Type where
  | struct : UDVariant
  | union : UDVariant
deriving DecidableEq, Repr

/-- A user-defined type: name, doc, struct/union kind and its `all_fields`. -/
structure UserDefined : Type where
  name : String
  doc : Option String
  variant : UDVariant
  fields : List StoneField
deriving DecidableEq, Repr

/-- The object-graph environment: user-defined type objects by identity. -/
abbrev Env : Type := List (Nat × UserDefined)

/-- `is_void_type`. -/
def isVoidType : DataType → Bool
  | .void => true
  | _ => false

/-- `is_primitive_type`: Boolean, Numeric, String, Timestamp and Void. -/
def isPrimitiveType : DataType → Bool
  | .boolean => true
  | .numeric => true
  | .string_ => true
  | .timestamp => true
  | .void => true
  | _ => false

/-! ### The swagger object model (swagger_objects.py)

`Schema` keeps, in their Python `__init__` assignment order, exactly the
attributes the swagger backend ever assigns a non-`None` value to: `type`,
`title`, `items`, `properties`, `description`, `required`, `enum`.  The
remaining attributes (`allOf`, `format`, `default`, `pattern`,
`discriminator`, `readOnly`, `xml`, `externalDocs`, `example`) are never
assigned by the backend, stay `None`, and are therefore omitted by
`Serializable.dict`; they are left out of the embedding.  (`required` is
itself never assigned either — claim C10 — but it is kept so that that fact
is a theorem rather than a modelling decision.) -/

mutual
inductive Schema : Type where
  | mk : (type : Option String) → (title : Option String) →
      (items : Option SchemaOrRef) →
      (properties : Option (List (String × SchemaOrRef))) →
      (description : Option String) → (required : Option Bool) →
      (enum : Option (List String)) → Schema

inductive SchemaOrRef : Type where
  | schema : Schema → SchemaOrRef
  | ref : String → SchemaOrRef
end

def Schema.type : Schema → Option String
  | .mk t _ _ _ _ _ _ => t

def Schema.title : Schema → Option String
  | .mk _ ti _ _ _ _ _ => ti

def Schema.items : Schema → Option SchemaOrRef
  | .mk _ _ it _ _ _ _ => it

def Schema.properties : Schema → Option (List (String × SchemaOrRef))
  | .mk _ _ _ pr _ _ _ => pr

def Schema.description : Schema → Option String
  | .mk _ _ _ _ de _ _ => de

def Schema.required : Schema → Option Bool
  | .mk _ _ _ _ _ re _ => re

def Schema.enum : Schema → Option (List String)
  | .mk _ _ _ _ _ _ en => en

/-- `Parameter` (swagger_objects.py, lines 175-192), attributes in their
`__init__` assignment order; `_renames` maps `inParam` to the wire key `in`. -/
structure Parameter : Type where
  name : String
  inParam : String
  description : Option String
  required : Option Bool
  schema : Option SchemaOrRef
  type : Option String

/-- An element of an operation's parameter list: a `Parameter` or a
`Reference` (here carried as its `$ref` string). -/
inductive ParameterOrRef : Type where
  | param : Parameter → ParameterOrRef
  | ref : String → ParameterOrRef

/-- `Response`: description and optional schema. -/
structure Response : Type where
  description : String
  schema : Option SchemaOrRef

/-- `Responses`: the optional default response plus the status-code map,
whose entries become sibling attributes of the object. -/
structure Responses : Type where
  default : Option Response
  statusCodes : List (String × Response)

/-- `Operation`, restricted to the attributes the backend assigns (in their
`__init__` assignment order: `responses`, `summary`, `description`,
`operationId`, `parameters`). -/
structure Operation : Type where
  responses : Responses
  summary : Option String
  description : Option String
  operationId : Option String
  parameters : Option (List ParameterOrRef)

/-- `PathItem`: the backend only sets `post`. -/
structure PathItem : Type where
  post : Option Operation

/-- `Context.schemas` (swagger.stoneg.py, line 37): the definitions registry,
mapping a user-defined type's name to its rendered `Schema`. -/
abbrev Registry : Type := List (String × Schema)

/-- `ApiRoute`: name, doc, argument/result/error data types. -/
structure ApiRoute : Type where
  name : String
  doc : Option String
  argDataType : DataType
  resultDataType : DataType
  errorDataType : DataType

/-- `ApiNamespace`: name and routes (the declared data types play no role in
the functions under study). -/
structure ApiNamespace : Type where
  name : String
  routes : List ApiRoute

/-! ### The type schema synthesizer (swagger.stoneg.py, lines 121-219) -/

/-- `_generate_primitive_type_name` (lines 198-211): the `is_*` dispatch
chain; the final case logs a warning and degrades to `'object'`. -/
def generatePrimitiveTypeName : DataType → String
  | .boolean => "boolean"
  | .numeric => "number"
  | .string_ => "string"
  | .void => "null"
  | .timestamp => "string"
  | _ => "object"

/-- `_generate_primitive_type_schema` (lines 192-196): `Schema(type=name)`. -/
def generatePrimitiveTypeSchema (dt : DataType) : Schema :=
  .mk (some (generatePrimitiveTypeName dt)) none none none none none none

/-- `_generate_reference_for_datatype` (lines 213-215). -/
def generateReferenceForDatatype (ud : UserDefined) : SchemaOrRef :=
  .ref ("#/definitions/" ++ ud.name)

/-- `_generate_reference_for_parameter` (lines 217-219). -/
def generateReferenceForParameter (parameterName : String) : ParameterOrRef :=
  .ref ("#/parameters/" ++ parameterName)

/-- `if isinstance(property, Schema): property.description = field.doc`
(lines 172-173 and 186-187): a `Schema` gets its description overwritten by
the field's doc (possibly clearing it), a `Reference` is left alone. -/
def setDescription : SchemaOrRef → Option String → SchemaOrRef
  | .schema (.mk t ti it pr _ re en), doc => .schema (.mk t ti it pr doc re en)
  | .ref r, _ => .ref r

/-- `description = data_type.doc + '\n' if data_type.doc else ''`
(lines 164 and 182); `None` and the empty string are both falsy. -/
def descInit : Option String → String
  | none => ""
  | some d => if d.isEmpty then "" else d ++ "\n"

/-- The field loop of `_generate_from_struct` (lines 183-188), parameterized
by the synthesizer `synth` used for the recursive
`self._generate_for_datatype(ctx, field.data_type)` call: per field, extend
the description with `'%s: %s\n' % (field.name, field.doc)`, synthesize the
field's schema, copy the field's doc onto it, and store it in the
(insertion-ordered) properties dict. -/
def structFieldsLoop (synth : Registry → DataType → Option (SchemaOrRef × Registry)) :
    Registry → List (String × SchemaOrRef) → String → List StoneField →
    Option (List (String × SchemaOrRef) × String × Registry)
  | ctx, props, desc, [] => some (props, desc, ctx)
  | ctx, props, desc, f :: rest =>
    match synth ctx f.dataType with
    | none => none
    | some (property, ctx') =>
      structFieldsLoop synth ctx' (dictInsert props f.name (setDescription property f.doc))
        (desc ++ f.name ++ ": " ++ pyStr f.doc ++ "\n") rest

/-- `_generate_from_struct` (lines 179-190). -/
def generateFromStruct (synth : Registry → DataType → Option (SchemaOrRef × Registry))
    (ctx : Registry) (ud : UserDefined) : Option (Schema × Registry) :=
  match structFieldsLoop synth ctx [] (descInit ud.doc) ud.fields with
  | none => none
  | some (props, desc, ctx') =>
    some (.mk (some "object") none none (some props) (some desc) none none, ctx')

/-- The field loop of `_generate_from_union` (lines 166-174): every field
contributes its doc line and its name to `choices`; a Void field contributes
no property (`continue`); a non-Void field is synthesized like a struct
field. -/
def unionFieldsLoop (synth : Registry → DataType → Option (SchemaOrRef × Registry)) :
    Registry → List (String × SchemaOrRef) → String → List String → List StoneField →
    Option (List (String × SchemaOrRef) × String × List String × Registry)
  | ctx, props, desc, choices, [] => some (props, desc, choices, ctx)
  | ctx, props, desc, choices, f :: rest =>
    if isVoidType f.dataType then
      unionFieldsLoop synth ctx props (desc ++ f.name ++ ": " ++ pyStr f.doc ++ "\n")
        (choices ++ [f.name]) rest
    else
      match synth ctx f.dataType with
      | none => none
      | some (property, ctx') =>
        unionFieldsLoop synth ctx' (dictInsert props f.name (setDescription property f.doc))
          (desc ++ f.name ++ ": " ++ pyStr f.doc ++ "\n") (choices ++ [f.name]) rest

/-- `_generate_from_union` (lines 161-177): after the field loop the
discriminator property is stored under the fixed key `.tag`, a string enum of
all the field names titled after the union. -/
def generateFromUnion (synth : Registry → DataType → Option (SchemaOrRef × Registry))
    (ctx : Registry) (ud : UserDefined) : Option (Schema × Registry) :=
  match unionFieldsLoop synth ctx [] (descInit ud.doc) [] ud.fields with
  | none => none
  | some (props, desc, choices, ctx') =>
    some (.mk (some "object") none none
      (some (dictInsert props ".tag"
        (.schema (.mk (some "string") (some ("Choice of " ++ ud.name)) none none none none
          (some choices)))))
      (some desc) none none, ctx')

/-- `_generate_user_defined_schema` (lines 151-159): dispatch on
struct/union (the closed `UDVariant` realizes the `assert False` dead end). -/
def generateUserDefinedSchema (synth : Registry → DataType → Option (SchemaOrRef × Registry))
    (ctx : Registry) (ud : UserDefined) : Option (Schema × Registry) :=
  match ud.variant with
  | .struct => generateFromStruct synth ctx ud
  | .union => generateFromUnion synth ctx ud

/-- `_generate_for_datatype` (lines 121-134).  The registry (`ctx.schemas`)
is threaded explicitly.  `fuel` bounds the recursion depth through
user-defined types (the Python recursion is unbounded) and is consumed
exactly when a user-defined type's schema body is about to be generated;
note that, as in the source, the type's name is looked up in the registry
first and the registry entry for the name is written only after
`_generate_user_defined_schema` has returned. -/
def generateForDatatype (env : Env) (fuel : Nat) (ctx : Registry) (dt : DataType) :
    Option (SchemaOrRef × Registry) :=
  match dt with
  | .nullable inner => generateForDatatype env fuel ctx inner
  | .list inner =>
    match generateForDatatype env fuel ctx inner with
    | none => none
    | some (items, ctx') =>
      some (.schema (.mk (some "array") none (some items) none none none none), ctx')
  | .user id =>
    match lookupAssoc env id with
    | none => none
    | some ud =>
      if containsKey ctx ud.name then
        some (generateReferenceForDatatype ud, ctx)
      else
        match fuel with
        | 0 => none
        | fuel' + 1 =>
          match generateUserDefinedSchema (fun c d => generateForDatatype env fuel' c d) ctx ud with
          | none => none
          | some (schema, ctx') =>
            some (generateReferenceForDatatype ud, dictInsert ctx' ud.name schema)
  | .boolean => some (.schema (generatePrimitiveTypeSchema .boolean), ctx)
  | .numeric => some (.schema (generatePrimitiveTypeSchema .numeric), ctx)
  | .string_ => some (.schema (generatePrimitiveTypeSchema .string_), ctx)
  | .timestamp => some (.schema (generatePrimitiveTypeSchema .timestamp), ctx)
  | .void => some (.schema (generatePrimitiveTypeSchema .void), ctx)
termination_by (fuel, sizeOf dt)

/-! ### The route compiler (swagger.stoneg.py, lines 87-144) -/

/-- `_generate_parameters` (lines 111-119): one body parameter carrying the
synthesized argument schema, plus a `Reference` for every configured shared
parameter whose pattern matches the path.  `rockParams` is
`ctx.rock.parameters`, an optional pattern-to-parameter-name table. -/
def generateParameters (env : Env) (fuel : Nat) (ctx : Registry)
    (rockParams : Option (List (String × String))) (route : ApiRoute) (fqPath : String) :
    Option (List ParameterOrRef × Registry) :=
  match generateForDatatype env fuel ctx route.argDataType with
  | none => none
  | some (schema, ctx') =>
    let parameters : List ParameterOrRef :=
      [.param ⟨"body", "body", none, none, some schema, none⟩]
    let extra : List ParameterOrRef :=
      match rockParams with
      | none => []
      | some table =>
        (table.filter (fun kv => reMatch kv.1 fqPath)).map
          (fun kv => generateReferenceForParameter kv.2)
    some (parameters ++ extra, ctx')

/-- `_generate_responses` (lines 136-144): the default (error) response is
synthesized first, then the `'200'` (success) response. -/
def generateResponses (env : Env) (fuel : Nat) (ctx : Registry) (route : ApiRoute) :
    Option (Responses × Registry) :=
  match generateForDatatype env fuel ctx route.errorDataType with
  | none => none
  | some (defaultSchema, ctx1) =>
    match generateForDatatype env fuel ctx1 route.resultDataType with
    | none => none
    | some (okSchema, ctx2) =>
      some (⟨some ⟨"Error", some defaultSchema⟩, [("200", ⟨"Success", some okSchema⟩)]⟩, ctx2)

/-- `_generate_operation` (lines 101-109): summary is the formatted path,
description is the route's doc verbatim, the parameters are generated before
the responses, and the operation id is the PascalCase path. -/
def generateOperation (env : Env) (fuel : Nat) (ctx : Registry)
    (rockParams : Option (List (String × String))) (route : ApiRoute) (fqPath : String) :
    Option (Operation × Registry) :=
  match generateParameters env fuel ctx rockParams route fqPath with
  | none => none
  | some (parameters, ctx') =>
    match generateResponses env fuel ctx' route with
    | none => none
    | some (responses, ctx'') =>
      some (⟨responses, some (fmtPath fqPath), route.doc, some (fmtPascal fqPath),
        some parameters⟩, ctx'')

/-- `_generate_path_item` (lines 95-99). -/
def generatePathItem (env : Env) (fuel : Nat) (ctx : Registry)
    (rockParams : Option (List (String × String))) (route : ApiRoute) (fqPath : String) :
    Option (PathItem × Registry) :=
  match generateOperation env fuel ctx rockParams route fqPath with
  | none => none
  | some (post, ctx') => some (⟨some post⟩, ctx')

/-- The route loop of `_generate_paths` (lines 87-93):
`paths['/' + namespace.name + '/' + route.name] = path item`. -/
def generatePathsLoop (env : Env) (fuel : Nat)
    (rockParams : Option (List (String × String))) (nsName : String) :
    Registry → List (String × PathItem) → List ApiRoute →
    Option (List (String × PathItem) × Registry)
  | ctx, paths, [] => some (paths, ctx)
  | ctx, paths, route :: rest =>
    match generatePathItem env fuel ctx rockParams route
        ("/" ++ nsName ++ "/" ++ route.name) with
    | none => none
    | some (item, ctx') =>
      generatePathsLoop env fuel rockParams nsName ctx'
        (dictInsert paths ("/" ++ nsName ++ "/" ++ route.name) item) rest

/-- `_generate_paths` (lines 87-93). -/
def generatePaths (env : Env) (fuel : Nat) (ctx : Registry)
    (rockParams : Option (List (String × String))) (ns : ApiNamespace) :
    Option (List (String × PathItem) × Registry) :=
  generatePathsLoop env fuel rockParams ns.name ctx [] ns.routes

/-- The namespace loop of `SwaggerBackend.generate` (lines 48-52): a fresh
`Context` (empty registry), then for each namespace named in the rock file,
look it up in `api.namespaces` (a missing namespace is a `KeyError`, i.e.
`none`) and merge its paths into `all_paths` via `dict.update`. -/
def generateAllPathsLoop (env : Env) (fuel : Nat)
    (rockParams : Option (List (String × String))) (api : List (String × ApiNamespace)) :
    Registry → List (String × PathItem) → List String →
    Option (List (String × PathItem) × Registry)
  | ctx, allPaths, [] => some (allPaths, ctx)
  | ctx, allPaths, nsName :: rest =>
    match lookupAssoc api nsName with
    | none => none
    | some ns =>
      match generatePaths env fuel ctx rockParams ns with
      | none => none
      | some (paths, ctx') =>
        generateAllPathsLoop env fuel rockParams api ctx' (dictUpdate allPaths paths) rest

/-- `SwaggerBackend.generate` (lines 44-55), up to the document assembly:
all the paths of the namespaces listed in the rock, and the final registry. -/
def generateAllPaths (env : Env) (fuel : Nat) (api : List (String × ApiNamespace))
    (rockParams : Option (List (String × String))) (rockNamespaces : List String) :
    Option (List (String × PathItem) × Registry) :=
  generateAllPathsLoop env fuel rockParams api [] [] rockNamespaces

/-! ### The serialization renderer (swagger_objects.py, lines 4-17)

`json.dumps(swagger, default=lambda o: o.dict(), ...)` renders every
`Serializable` through its `dict()` method: the attributes are walked in
`__dict__` insertion order (the `__init__` assignment order), an attribute
holding `None` is skipped, an attribute named in `_renames` is emitted under
its renamed wire key (the `_renames` bookkeeping attribute itself maps to
`None` and is thereby skipped — it never appears in the field lists below). -/

/-- A rendered JSON value (only the shapes the modelled entities produce). -/
inductive JValue : Type where
  | str : String → JValue
  | bool : Bool → JValue
  | arr : List JValue → JValue
  | obj : List (String × JValue) → JValue

/-- `Serializable.dict` (swagger_objects.py, lines 8-17) over an explicit
attribute list: `renames` is the entity's `_renames` table, `fields` are the
attributes in `__dict__` order, each with its (optional) value. -/
def serializableDict (renames : List (String × Option String)) :
    List (String × Option JValue) → List (String × JValue)
  | [] => []
  | (_, none) :: rest => serializableDict renames rest
  | (k, some v) :: rest =>
    match lookupAssoc renames k with
    | some (some r) => (r, v) :: serializableDict renames rest
    | some none => serializableDict renames rest
    | none => (k, v) :: serializableDict renames rest

mutual
/-- Rendering a `Schema` through `Serializable.dict`: no renames; attributes
in `__init__` order (`type`, `title`, `items`, `properties`, `description`,
`required`, `enum` — the attributes the backend never assigns are `None` and
contribute nothing, see the note on `Schema`). -/
def renderSchema : Schema → List (String × JValue)
  | .mk t ti it pr de re en =>
    serializableDict []
      [("type", t.map .str), ("title", ti.map .str),
       ("items", renderItemsOpt it), ("properties", renderPropertiesOpt pr),
       ("description", de.map .str), ("required", re.map .bool),
       ("enum", en.map (fun l => .arr (l.map .str)))]

/-- A `Schema` renders as the object of its `dict()`; a `Reference` renders
as the single-key object `$ref` (its `_renames` maps `ref` to `$ref`). -/
def renderSchemaOrRef : SchemaOrRef → JValue
  | .schema s => .obj (renderSchema s)
  | .ref r => .obj [("$ref", .str r)]

def renderItemsOpt : Option SchemaOrRef → Option JValue
  | none => none
  | some x => some (renderSchemaOrRef x)

def renderPropertiesOpt : Option (List (String × SchemaOrRef)) → Option JValue
  | none => none
  | some l => some (.obj (renderProperties l))

/-- `Schema.Properties`: its `__dict__` is the properties dict itself, every
value a `Schema` or `Reference`. -/
def renderProperties : List (String × SchemaOrRef) → List (String × JValue)
  | [] => []
  | (k, v) :: rest => (k, renderSchemaOrRef v) :: renderProperties rest
end

/-- Rendering a `Parameter` through `Serializable.dict`: its `_renames` maps
`inParam` to the wire key `in`; attributes in `__init__` order. -/
def renderParameter (p : Parameter) : List (String × JValue) :=
  serializableDict [("inParam", some "in")]
    [("name", some (.str p.name)), ("inParam", some (.str p.inParam)),
     ("description", p.description.map .str), ("required", p.required.map .bool),
     ("schema", p.schema.map renderSchemaOrRef), ("type", p.type.map .str)]

/-! ### Structural predicates used by the claims -/

mutual
/-- No schema in this tree carries a `required` attribute. -/
def schemaRequiredFree : Schema → Bool
  | .mk _ _ it pr _ re _ =>
    re.isNone && itemsRequiredFree it && propertiesOptRequiredFree pr

def sorRequiredFree : SchemaOrRef → Bool
  | .schema s => schemaRequiredFree s
  | .ref _ => true

def itemsRequiredFree : Option SchemaOrRef → Bool
  | none => true
  | some x => sorRequiredFree x

def propertiesOptRequiredFree : Option (List (String × SchemaOrRef)) → Bool
  | none => true
  | some l => propertiesRequiredFree l

def propertiesRequiredFree : List (String × SchemaOrRef) → Bool
  | [] => true
  | (_, v) :: rest => sorRequiredFree v && propertiesRequiredFree rest
end

mutual
/-- No object anywhere in this JSON value has a key `"required"`. -/
def noRequiredKey : JValue → Bool
  | .str _ => true
  | .bool _ => true
  | .arr es => noRequiredKeyList es
  | .obj fs => noRequiredKeyFields fs

def noRequiredKeyList : List JValue → Bool
  | [] => true
  | v :: rest => noRequiredKey v && noRequiredKeyList rest

def noRequiredKeyFields : List (String × JValue) → Bool
  | [] => true
  | (k, v) :: rest => !(k == "required") && noRequiredKey v && noRequiredKeyFields rest
end

/-- Every schema stored in the registry is `required`-free. -/
def registryRequiredFree (ctx : Registry) : Prop :=
  ∀ kv ∈ ctx, schemaRequiredFree kv.2 = true

/-! ### Definitions following the spec's words (for comparison with the code)

The two definitions below are NOT translations of the source; they transcribe
what the spec says, so that a claim made in the spec's vocabulary can be
compared against the behaviour of the embedded code. -/

/-- Follows the spec's words, not the source (where `SPLIT_DOC_REGEX` is
defined on line 18 but never used): "short summary = text up to the first
sentence terminator (`". "` or a period at end of line) or the first line if
none found; remainder becomes the long description".  A sentence terminator
is a period followed by a non-word character (which is consumed) or by the
end of the text, matching `SPLIT_DOC_REGEX = r'(.*?)\.(?:[^\w\d]|$)(.*)'`. -/
def splitDocSpecAux (acc : List Char) : List Char → Option (String × String)
  | [] => none
  | '.' :: rest =>
    match rest with
    | [] => some (String.mk acc.reverse, "")
    | c :: rest' =>
      if c.isAlphanum || c == '_' then splitDocSpecAux ('.' :: acc) (c :: rest')
      else some (String.mk acc.reverse, String.mk rest')
  | c :: rest => splitDocSpecAux (c :: acc) rest

/-- Follows the spec's words: see `splitDocSpecAux`; when no sentence
terminator is found, the summary is the first line and the description is
empty. -/
def splitDocSpec (doc : String) : String × String :=
  match splitDocSpecAux [] doc.toList with
  | some p => p
  | none => (String.mk (doc.toList.takeWhile (fun c => !(c == '\n'))), "")

/-- Follows the spec's words: an "(empty) object schema" — a schema node
whose `type` is `"object"` with no properties (claim C6's expectation for a
Void route argument). -/
def isEmptyObjectSchemaSpec : SchemaOrRef → Bool
  | .schema (.mk (some "object") _ _ none _ _ _) => true
  | .schema (.mk (some "object") _ _ (some []) _ _ _) => true
  | _ => false

/-! ### Helper lemmas about the `dict` model -/

theorem containsKey_eq_true_iff (l : List (String × α)) (k : String) :
    containsKey l k = true ↔ k ∈ l.map Prod.fst := by
  induction l with
  | nil => simp [containsKey]
  | cons kv rest ih =>
    obtain ⟨k1, v1⟩ := kv
    simp only [containsKey, Bool.or_eq_true, beq_iff_eq, ih, List.map_cons, List.mem_cons]
    constructor
    · rintro (rfl | h)
      · exact Or.inl rfl
      · exact Or.inr h
    · rintro (rfl | h)
      · exact Or.inl rfl
      · exact Or.inr h

theorem containsKey_eq_false_iff (l : List (String × α)) (k : String) :
    containsKey l k = false ↔ k ∉ l.map Prod.fst := by
  constructor
  · intro h hmem
    rw [← containsKey_eq_true_iff, h] at hmem
    cases hmem
  · intro h
    cases hc : containsKey l k
    · rfl
    · exact absurd ((containsKey_eq_true_iff l k).mp hc) h

theorem dictInsert_eq_append (l : List (String × α)) (k : String) (v : α)
    (h : containsKey l k = false) : dictInsert l k v = l ++ [(k, v)] := by
  induction l with
  | nil => simp [dictInsert]
  | cons kv rest ih =>
    rw [containsKey, Bool.or_eq_false_iff] at h
    simp [dictInsert, h.1, ih h.2]

theorem keys_dictInsert (l : List (String × α)) (k : String) (v : α) :
    (dictInsert l k v).map Prod.fst =
      if containsKey l k then l.map Prod.fst else l.map Prod.fst ++ [k] := by
  induction l with
  | nil => simp [dictInsert, containsKey]
  | cons kv rest ih =>
    obtain ⟨k1, v1⟩ := kv
    by_cases hk : (k1 == k) = true
    · simp [dictInsert, containsKey, hk]
    · have hk' : (k1 == k) = false := by simpa using hk
      simp only [dictInsert, containsKey, hk', Bool.false_or, Bool.false_eq_true, if_false,
        List.map_cons]
      rw [ih]
      by_cases hc : containsKey rest k = true
      · simp [hc]
      · have hc' : containsKey rest k = false := by simpa using hc
        simp [hc']

theorem mem_keys_dictInsert (l : List (String × α)) (k k' : String) (v : α) :
    k' ∈ (dictInsert l k v).map Prod.fst ↔ k' ∈ l.map Prod.fst ∨ k' = k := by
  rw [keys_dictInsert]
  by_cases hc : containsKey l k = true
  · have hm := (containsKey_eq_true_iff l k).mp hc
    rw [if_pos hc]
    constructor
    · exact Or.inl
    · rintro (h | rfl)
      · exact h
      · exact hm
  · rw [if_neg hc]
    simp

theorem nodupKeys_dictInsert (l : List (String × α)) (k : String) (v : α)
    (h : nodupKeys l) : nodupKeys (dictInsert l k v) := by
  unfold nodupKeys at *
  rw [keys_dictInsert]
  by_cases hc : containsKey l k = true
  · simpa [hc] using h
  · have hc' : containsKey l k = false := by simpa using hc
    have hkm : k ∉ l.map Prod.fst := (containsKey_eq_false_iff l k).mp hc'
    simp only [hc', Bool.false_eq_true, if_false]
    rw [List.nodup_append]
    refine ⟨h, List.nodup_singleton k, ?_⟩
    intro a ha hb
    rw [List.mem_singleton] at hb
    exact hkm (hb ▸ ha)

theorem mem_dictInsert_val (l : List (String × α)) (k : String) (v : α)
    (kv : String × α) (h : kv ∈ dictInsert l k v) : kv ∈ l ∨ kv.2 = v := by
  induction l with
  | nil =>
    rw [dictInsert, List.mem_singleton] at h
    exact Or.inr (by rw [h])
  | cons kv1 rest ih =>
    obtain ⟨k1, v1⟩ := kv1
    by_cases hk : (k1 == k) = true
    · rw [dictInsert, if_pos hk, List.mem_cons] at h
      rcases h with h1 | h1
      · exact Or.inr (by rw [h1])
      · exact Or.inl (List.mem_cons_of_mem _ h1)
    · rw [dictInsert, if_neg hk, List.mem_cons] at h
      rcases h with h1 | h1
      · exact Or.inl (h1 ▸ List.mem_cons_self _ _)
      · rcases ih h1 with h2 | h2
        · exact Or.inl (List.mem_cons_of_mem _ h2)
        · exact Or.inr h2

theorem countKey_eq_zero (l : List (String × α)) (k : String)
    (h : k ∉ l.map Prod.fst) : countKey l k = 0 := by
  induction l with
  | nil => rfl
  | cons kv rest ih =>
    simp only [List.map_cons, List.mem_cons, not_or] at h
    have hk : (kv.1 == k) = false :=
      beq_eq_false_iff_ne.mpr (fun hkk => h.1 hkk.symm)
    unfold countKey
    rw [List.filter_cons, hk]
    exact ih h.2

theorem countKey_eq_one (l : List (String × α)) (k : String)
    (hnd : (l.map Prod.fst).Nodup) (hmem : k ∈ l.map Prod.fst) : countKey l k = 1 := by
  induction l with
  | nil => simp at hmem
  | cons kv rest ih =>
    simp only [List.map_cons, List.nodup_cons] at hnd
    simp only [List.map_cons, List.mem_cons] at hmem
    rcases hmem with rfl | hmem
    · have h0 : countKey rest kv.1 = 0 := countKey_eq_zero rest kv.1 hnd.1
      unfold countKey at h0 ⊢
      rw [List.filter_cons, BEq.refl]
      simp [h0]
    · have hk : (kv.1 == k) = false := by
        refine beq_eq_false_iff_ne.mpr ?_
        rintro rfl
        exact hnd.1 hmem
      have h1 := ih hnd.2 hmem
      unfold countKey at h1 ⊢
      rw [List.filter_cons, hk]
      exact h1

/-! ### Helper lemmas about the synthesizer -/

/-- The registry-hit branch of `_generate_for_datatype` (line 131's test
failing): a user-defined type whose name is already registered is answered
with a `Reference` and the registry untouched, whatever the fuel. -/
theorem generateForDatatype_user_hit (env : Env) (fuel : Nat) (ctx : Registry) (id : Nat)
    (ud : UserDefined) (henv : lookupAssoc env id = some ud)
    (hreg : containsKey ctx ud.name = true) :
    generateForDatatype env fuel ctx (.user id) =
      some (.ref ("#/definitions/" ++ ud.name), ctx) := by
  rw [generateForDatatype, henv]
  simp [hreg, generateReferenceForDatatype]

/-! ### Claim C9 -/

/-- C9: synthesizing a Nullable type returns exactly the synthesis of its
inner type, for every type and registry state (line 126 recurses with
nothing recorded), and in particular
`synthesize(Nullable(Nullable(String))) = synthesize(String)`; nullability
is not encoded in the returned schema node. -/
theorem c9_nullable_transparent (env : Env) (fuel : Nat) (ctx : Registry) (t : DataType) :
    generateForDatatype env fuel ctx (.nullable t) = generateForDatatype env fuel ctx t ∧
    generateForDatatype env fuel ctx (.nullable (.nullable .string_)) =
      generateForDatatype env fuel ctx .string_ := by
  constructor
  · rw [generateForDatatype]
  · rw [generateForDatatype, generateForDatatype]

/-! ### Claim C1

The code contradicts the claim here: `_generate_for_datatype` (lines
131-132) computes `self._generate_user_defined_schema(ctx, data_type)` in
full and only then assigns the registry entry for the type's name — no
placeholder is inserted before recursing into the fields.  For a
self-referential type the nested self-reference therefore finds the name
still unregistered and recurses again: synthesis never terminates (the
Python process dies with a `RecursionError`).  `envSelfRef` is the smallest
failing input, a struct whose single field is the struct itself. -/

/-- A self-referential struct: `SelfStruct { next: SelfStruct }`. -/
def envSelfRef : Env := [(0, ⟨"SelfStruct", none, .struct, [⟨"next", none, .user 0⟩]⟩)]

/-- C1: the code, evaluated on the failing input.  As long as `SelfStruct`
is not already registered, its synthesis exhausts every fuel bound — the
recursion never reaches a base case, because no placeholder entry is
inserted before the fields are visited.  (The claim's promised behaviour —
termination with nested references resolving against the placeholder — is
therefore falsified for every recursion depth.) -/
theorem c1_self_reference_diverges :
    ∀ (fuel : Nat) (ctx : Registry), containsKey ctx "SelfStruct" = false →
      generateForDatatype envSelfRef fuel ctx (.user 0) = none := by
  intro fuel
  induction fuel with
  | zero =>
    intro ctx h
    rw [generateForDatatype]
    simp [envSelfRef, lookupAssoc, h]
  | succ n ih =>
    intro ctx h
    rw [generateForDatatype]
    have hl : lookupAssoc envSelfRef 0 =
        some ⟨"SelfStruct", none, .struct, [⟨"next", none, .user 0⟩]⟩ := rfl
    rw [hl]
    simp only [h, Bool.false_eq_true, if_false]
    simp [generateUserDefinedSchema, generateFromStruct, structFieldsLoop, ih ctx h]

/-- C1 witness: the divergence theorem applied at fuel 5 and the empty
registry. -/
theorem c1_witness :
    containsKey ([] : Registry) "SelfStruct" = false ∧
    generateForDatatype envSelfRef 5 [] (.user 0) = none :=
  ⟨rfl, c1_self_reference_diverges 5 [] rfl⟩

/-! ### Claim C2

The code contradicts the claim: `SPLIT_DOC_REGEX` (line 18) is defined but
never used.  `_generate_operation` (lines 101-109) sets the operation's
summary to `fmt_path(fq_path)` — the capitalized path, independent of the
route's doc — and its description to `route.doc` verbatim. -/

/-- C2 counterexample: a route whose doc is
`"Lists contents. More detail."`.  The spec-side doc split would make the
summary `"Lists contents"` and the description `"More detail."`; the code
instead produces summary `"Files - List Folder"` (the formatted path) and
the untouched full doc as description. -/
theorem c2_counterexample :
    ((generateOperation [] 0 [] none
        ⟨"list_folder", some "Lists contents. More detail.", .void, .void, .void⟩
        "/files/list_folder").map (fun r => (r.1.summary, r.1.description))) =
      some (some "Files - List Folder", some "Lists contents. More detail.") ∧
    splitDocSpec "Lists contents. More detail." = ("Lists contents", "More detail.") ∧
    some "Files - List Folder" ≠ some "Lists contents" ∧
    some "Lists contents. More detail." ≠ some "More detail." := by
  refine ⟨?_, by decide, by decide, by decide⟩
  have h1 : fmtPath "/files/list_folder" = "Files - List Folder" := by decide
  simp [generateOperation, generateParameters, generateResponses, generateForDatatype,
    generatePrimitiveTypeSchema, generatePrimitiveTypeName, h1]

/-- C2 (amended): for every route, the operation's summary is the
namespace-qualified path formatted by `fmt_path` (each segment's words
capitalized and segments joined by `" - "`), and its description is the
route's doc text verbatim — in particular a route with no doc yields an
operation with no description attribute, while its summary is still the
formatted path. -/
theorem c2_summary_is_formatted_path (env : Env) (fuel : Nat) (ctx : Registry)
    (rockParams : Option (List (String × String))) (route : ApiRoute) (fqPath : String)
    (op : Operation) (ctx' : Registry)
    (h : generateOperation env fuel ctx rockParams route fqPath = some (op, ctx')) :
    op.summary = some (fmtPath fqPath) ∧ op.description = route.doc := by
  unfold generateOperation at h
  split at h
  · cases h
  · split at h
    · cases h
    · cases h
      exact ⟨rfl, rfl⟩

/-- C2 witness: the amended theorem applied to the counterexample's route. -/
theorem c2_witness :
    ((generateOperation [] 0 [] none
        ⟨"list_folder", some "Lists contents. More detail.", .void, .void, .void⟩
        "/files/list_folder").map (fun r => r.1.summary)) =
      some (some (fmtPath "/files/list_folder")) := by
  cases hop : generateOperation [] 0 [] none
      ⟨"list_folder", some "Lists contents. More detail.", .void, .void, .void⟩
      "/files/list_folder" with
  | none =>
    exfalso
    revert hop
    simp [generateOperation, generateParameters, generateResponses, generateForDatatype,
      generatePrimitiveTypeSchema, generatePrimitiveTypeName]
  | some r =>
    have hs := c2_summary_is_formatted_path [] 0 [] none _ "/files/list_folder" r.1 r.2
      (by rw [hop])
    simp [hs.1]

/-! ### Claim C3

The code contradicts the claim: `_generate_operation` derives
`operation_id = fmt_pascal(fq_path)` (line 107) and neither it nor
`SwaggerBackend.generate` performs any uniqueness check on the derived
identifiers — two colliding routes are both emitted, silently carrying the
same `operationId`. -/

/-- Every successfully generated operation carries the formatted path as
summary, the route's doc as description, and the PascalCase path as its
operation id (shape of `_generate_operation`'s result). -/
theorem generateOperation_shape (env : Env) (fuel : Nat) (ctx : Registry)
    (rockParams : Option (List (String × String))) (route : ApiRoute) (fqPath : String)
    (op : Operation) (ctx' : Registry)
    (h : generateOperation env fuel ctx rockParams route fqPath = some (op, ctx')) :
    op.summary = some (fmtPath fqPath) ∧ op.description = route.doc ∧
    op.operationId = some (fmtPascal fqPath) := by
  unfold generateOperation at h
  split at h
  · cases h
  · split at h
    · cases h
    · cases h
      exact ⟨rfl, rfl, rfl⟩

/-- Every successfully generated path item holds a post operation whose
operation id is the PascalCase path. -/
theorem generatePathItem_operationId (env : Env) (fuel : Nat) (ctx : Registry)
    (rockParams : Option (List (String × String))) (route : ApiRoute) (fqPath : String)
    (item : PathItem) (ctx' : Registry)
    (h : generatePathItem env fuel ctx rockParams route fqPath = some (item, ctx')) :
    ∃ op, item.post = some op ∧ op.operationId = some (fmtPascal fqPath) := by
  unfold generatePathItem at h
  cases hop : generateOperation env fuel ctx rockParams route fqPath with
  | none => rw [hop] at h; cases h
  | some pr =>
    rw [hop] at h
    obtain ⟨post, ctx1⟩ := pr
    cases h
    exact ⟨post, rfl, (generateOperation_shape _ _ _ _ _ _ _ _ hop).2.2⟩

/-- The route loop of `_generate_paths` emits one entry per route (keyed by
the fully qualified path, in route order) and every emitted path item's
operation id is the PascalCase path — with no check whatsoever relating the
ids of different routes. -/
theorem generatePathsLoop_spec (env : Env) (fuel : Nat)
    (rockParams : Option (List (String × String))) (nsName : String) :
    ∀ (routes : List ApiRoute) (ctx : Registry) (acc : List (String × PathItem))
      (paths : List (String × PathItem)) (ctx' : Registry),
      generatePathsLoop env fuel rockParams nsName ctx acc routes = some (paths, ctx') →
      (∀ r ∈ routes, ("/" ++ nsName ++ "/" ++ r.name) ∉ acc.map Prod.fst) →
      (routes.map (fun r => "/" ++ nsName ++ "/" ++ r.name)).Nodup →
      (∀ p ∈ acc, ∃ op, p.2.post = some op ∧ op.operationId = some (fmtPascal p.1)) →
      paths.map Prod.fst =
        acc.map Prod.fst ++ routes.map (fun r => "/" ++ nsName ++ "/" ++ r.name) ∧
      (∀ p ∈ paths, ∃ op, p.2.post = some op ∧ op.operationId = some (fmtPascal p.1)) := by
  intro routes
  induction routes with
  | nil =>
    intro ctx acc paths ctx' h hfresh hnd hacc
    unfold generatePathsLoop at h
    cases h
    simpa using hacc
  | cons route rest ih =>
    intro ctx acc paths ctx' h hfresh hnd hacc
    unfold generatePathsLoop at h
    split at h
    · cases h
    · rename_i item ctx1 heq
      have hitem := generatePathItem_operationId _ _ _ _ _ _ _ _ heq
      have hfq : ("/" ++ nsName ++ "/" ++ route.name) ∉ acc.map Prod.fst :=
        hfresh route (List.mem_cons_self _ _)
      have hins : dictInsert acc ("/" ++ nsName ++ "/" ++ route.name) item =
          acc ++ [("/" ++ nsName ++ "/" ++ route.name, item)] :=
        dictInsert_eq_append _ _ _ ((containsKey_eq_false_iff _ _).mpr hfq)
      rw [hins] at h
      simp only [List.map_cons, List.nodup_cons] at hnd
      have hfresh' : ∀ r ∈ rest, ("/" ++ nsName ++ "/" ++ r.name) ∉
          (acc ++ [("/" ++ nsName ++ "/" ++ route.name, item)]).map Prod.fst := by
        intro r hr
        simp only [List.map_append, List.map_cons, List.map_nil, List.mem_append,
          List.mem_singleton, not_or]
        refine ⟨hfresh r (List.mem_cons_of_mem _ hr), ?_⟩
        intro hcontra
        exact hnd.1 (hcontra ▸ List.mem_map_of_mem _ hr)
      have hacc' : ∀ p ∈ acc ++ [("/" ++ nsName ++ "/" ++ route.name, item)],
          ∃ op, p.2.post = some op ∧ op.operationId = some (fmtPascal p.1) := by
        intro p hp
        rcases List.mem_append.mp hp with hp1 | hp1
        · exact hacc p hp1
        · rw [List.mem_singleton] at hp1
          subst hp1
          exact hitem
      obtain ⟨hkeys, hprop⟩ := ih ctx1 _ paths ctx' h hfresh' hnd.2 hacc'
      refine ⟨?_, hprop⟩
      rw [hkeys]
      simp

/-- C3 (amended): no collision detection exists for derived operation
identifiers.  Whenever `_generate_paths` succeeds it emits one entry per
route — keyed by the fully qualified path, in declaration order — and every
entry's operation id is `fmt_pascal` of its path, regardless of whether two
routes' identifiers coincide; no error path exists for such a collision, and
both colliding operations are kept. -/
theorem c3_collision_not_detected (env : Env) (fuel : Nat)
    (rockParams : Option (List (String × String))) (ns : ApiNamespace)
    (ctx : Registry) (paths : List (String × PathItem)) (ctx' : Registry)
    (h : generatePaths env fuel ctx rockParams ns = some (paths, ctx'))
    (hnd : (ns.routes.map (fun r => "/" ++ ns.name ++ "/" ++ r.name)).Nodup) :
    paths.map Prod.fst = ns.routes.map (fun r => "/" ++ ns.name ++ "/" ++ r.name) ∧
    ∀ p ∈ paths, ∃ op, p.2.post = some op ∧ op.operationId = some (fmtPascal p.1) := by
  unfold generatePaths at h
  obtain ⟨hkeys, hprop⟩ :=
    generatePathsLoop_spec env fuel rockParams ns.name ns.routes ctx [] paths ctx' h
      (by simp) hnd (by simp)
  exact ⟨by simpa using hkeys, hprop⟩

/-- The two-namespace input on which the derived operation identifiers
collide: `/files/a_b` and `/files_a/b` both become `FilesAB`. -/
def apiCollide : List (String × ApiNamespace) :=
  [("files", ⟨"files", [⟨"a_b", none, .void, .void, .void⟩]⟩),
   ("files_a", ⟨"files_a", [⟨"b", none, .void, .void, .void⟩]⟩)]

/-- Projection used to observe an emitted operation id. -/
def pathOperationId (paths : List (String × PathItem)) (fq : String) : Option String :=
  match lookupAssoc paths fq with
  | none => none
  | some item =>
    match item.post with
    | none => none
    | some op => op.operationId

/-- C3 counterexample: two distinct routes whose derived operation
identifiers are both `"FilesAB"`; generation does not abort — it returns a
document containing both operations (so it does not even "pick one"), each
silently carrying the same identifier. -/
theorem c3_counterexample :
    ((generateAllPaths [] 0 apiCollide none ["files", "files_a"]).map
      (fun r => (pathOperationId r.1 "/files/a_b", pathOperationId r.1 "/files_a/b"))) =
      some (some "FilesAB", some "FilesAB") ∧
    "/files/a_b" ≠ "/files_a/b" := by
  have h1 : fmtPascal "/files/a_b" = "FilesAB" := by decide
  have h2 : fmtPascal "/files_a/b" = "FilesAB" := by decide
  refine ⟨?_, by decide⟩
  simp [generateAllPaths, generateAllPathsLoop, generatePaths, generatePathsLoop,
    generatePathItem, generateOperation, generateParameters, generateResponses,
    generateForDatatype, generatePrimitiveTypeSchema, generatePrimitiveTypeName,
    lookupAssoc, dictInsert, dictUpdate, pathOperationId, apiCollide, h1, h2]

/-- C3 witness: the amended theorem applied to the first colliding
namespace. -/
theorem c3_witness :
    ((generatePaths [] 0 [] none ⟨"files", [⟨"a_b", none, .void, .void, .void⟩]⟩).map
      (fun r => r.1.map Prod.fst)) = some ["/files/a_b"] := by
  cases h : generatePaths [] 0 [] none ⟨"files", [⟨"a_b", none, .void, .void, .void⟩]⟩ with
  | none =>
    exfalso
    revert h
    simp [generatePaths, generatePathsLoop, generatePathItem, generateOperation,
      generateParameters, generateResponses, generateForDatatype,
      generatePrimitiveTypeSchema, generatePrimitiveTypeName, dictInsert]
  | some r =>
    obtain ⟨hkeys, hprop⟩ := c3_collision_not_detected [] 0 none _ [] r.1 r.2
      (by rw [h]) (by decide)
    simp [hkeys]

/-! ### Claim C6

The code contradicts the claim's Void clause: Void is dispatched through the
primitive branch of `_generate_for_datatype` (line 123), and
`_generate_primitive_type_name` maps it to `'null'` (lines 206-207) — the
body parameter of a Void-argument route carries `Schema(type='null')`, not
an (empty) object schema. -/

/-- C6 counterexample: a route with Void argument type.  Its body parameter
gets the schema `{"type": "null"}`, which is not an (empty) object schema in
the spec's sense. -/
theorem c6_counterexample :
    generateParameters [] 0 [] none ⟨"r", none, .void, .void, .void⟩ "/ns/r" =
      some ([.param ⟨"body", "body", none, none,
        some (.schema (.mk (some "null") none none none none none none)), none⟩], []) ∧
    isEmptyObjectSchemaSpec (.schema (.mk (some "null") none none none none none none)) =
      false := by
  constructor
  · simp [generateParameters, generateForDatatype, generatePrimitiveTypeSchema,
      generatePrimitiveTypeName]
  · rfl

/-- C6 (amended): the generated parameter list is exactly one body parameter
carrying the synthesized argument schema, followed only by `Reference`
entries for the configured shared parameters; a Void argument is never
special-cased away, but its body schema is `Schema(type='null')` (not an
object schema). -/
theorem c6_body_parameter (env : Env) (fuel : Nat) (ctx : Registry)
    (rockParams : Option (List (String × String))) (route : ApiRoute) (fqPath : String)
    (params : List ParameterOrRef) (ctx' : Registry)
    (h : generateParameters env fuel ctx rockParams route fqPath = some (params, ctx')) :
    ∃ schema extras,
      params = .param ⟨"body", "body", none, none, some schema, none⟩ :: extras ∧
      generateForDatatype env fuel ctx route.argDataType = some (schema, ctx') ∧
      (∀ x ∈ extras, ∃ r, x = ParameterOrRef.ref r) ∧
      (route.argDataType = .void →
        schema = .schema (.mk (some "null") none none none none none none)) := by
  unfold generateParameters at h
  split at h
  · cases h
  · rename_i schema ctx1 heq
    cases h
    refine ⟨schema, _, rfl, heq, ?_, ?_⟩
    · intro x hx
      cases rockParams with
      | none => simp at hx
      | some table =>
        have hx' : x ∈ (table.filter (fun kv => reMatch kv.1 fqPath)).map
            (fun kv => generateReferenceForParameter kv.2) := hx
        simp only [List.mem_map] at hx'
        obtain ⟨kv, hkv1, hkv2⟩ := hx'
        exact ⟨"#/parameters/" ++ kv.2, hkv2.symm⟩
    · intro hv
      rw [hv, generateForDatatype] at heq
      cases heq
      rfl

/-- C6 witness: the amended theorem applied to a Void-argument route. -/
theorem c6_witness :
    ∃ schema extras,
      ([ParameterOrRef.param ⟨"body", "body", none, none,
          some (SchemaOrRef.schema (Schema.mk (some "null") none none none none none none)),
          none⟩] : List ParameterOrRef) =
        .param ⟨"body", "body", none, none, some schema, none⟩ :: extras ∧
      schema = .schema (.mk (some "null") none none none none none none) := by
  have hgp : generateParameters [] 0 [] none ⟨"r", none, .void, .void, .void⟩ "/ns/r" =
      some ([.param ⟨"body", "body", none, none,
        some (.schema (.mk (some "null") none none none none none none)), none⟩], []) := by
    simp [generateParameters, generateForDatatype, generatePrimitiveTypeSchema,
      generatePrimitiveTypeName]
  obtain ⟨schema, extras, hparams, hg, hrefs, hvoid⟩ :=
    c6_body_parameter [] 0 [] none _ "/ns/r" _ _ hgp
  exact ⟨schema, extras, hparams, hvoid rfl⟩

/-! ### Claim C7

The code contradicts the claim: `_generate_for_datatype` (line 131) tests
only the name — a second, structurally different type with an
already-registered name is never generated at all; the call silently
returns a `Reference` that resolves to the first type's entry, and no
failure of any kind occurs. -/

/-- C7 (amended): reaching a second, distinct user-defined type whose name
is already registered is not a failure: the type's own schema is silently
never generated, the call returns a `Reference` resolving to the existing
(first) entry, and the registry is left unchanged (the first entry wins; it
is never overwritten). -/
theorem c7_duplicate_name_dedup (env : Env) (fuel : Nat) (ctx : Registry) (id : Nat)
    (ud : UserDefined) (henv : lookupAssoc env id = some ud)
    (hreg : containsKey ctx ud.name = true) :
    generateForDatatype env fuel ctx (.user id) =
      some (.ref ("#/definitions/" ++ ud.name), ctx) :=
  generateForDatatype_user_hit env fuel ctx id ud henv hreg

/-- Two distinct struct objects both named `T` (ids 0 and 1), plus a struct
`W` whose fields reach both of them within one pass. -/
def envDupName : Env :=
  [(0, ⟨"T", none, .struct, [⟨"x", none, .string_⟩]⟩),
   (1, ⟨"T", none, .struct, [⟨"y", none, .boolean⟩]⟩),
   (2, ⟨"W", none, .struct, [⟨"a", none, .user 0⟩, ⟨"b", none, .user 1⟩]⟩)]

/-- C7 counterexample: with two distinct same-named types reachable in one
pass, generation succeeds (no hard failure), the registry keeps exactly one
entry for `"T"`, and that entry is the first type's schema (its only
property is `x` — the second type's `y` is nowhere). -/
theorem c7_counterexample :
    (generateForDatatype envDupName 3 [] (.user 2)).isSome = true ∧
    ((generateForDatatype envDupName 3 [] (.user 2)).bind
      (fun r => lookupAssoc r.2 "T")).map
        (fun s => s.properties.map (fun l => l.map Prod.fst)) = some (some ["x"]) ∧
    ((generateForDatatype envDupName 3 [] (.user 2)).map
      (fun r => countKey r.2 "T")) = some 1 := by
  refine ⟨?_, ?_, ?_⟩ <;>
    simp [generateForDatatype, generateUserDefinedSchema, generateFromStruct,
      structFieldsLoop, lookupAssoc, containsKey, dictInsert, setDescription, descInit,
      pyStr, generatePrimitiveTypeSchema, generatePrimitiveTypeName,
      generateReferenceForDatatype, Schema.properties, envDupName, countKey]

/-- C7 witness: the amended theorem applied to a second type (id 1, also
named `T`) after the name is already registered. -/
theorem c7_witness :
    generateForDatatype [(0, ⟨"T", none, UDVariant.struct, [⟨"y", none, DataType.boolean⟩]⟩)]
        4 [("T", Schema.mk (some "object") none none (some []) (some "") none none)]
        (.user 0) =
      some (.ref ("#/definitions/" ++ "T"),
        [("T", Schema.mk (some "object") none none (some []) (some "") none none)]) :=
  c7_duplicate_name_dedup
    [(0, ⟨"T", none, UDVariant.struct, [⟨"y", none, DataType.boolean⟩]⟩)] 4
    [("T", Schema.mk (some "object") none none (some []) (some "") none none)] 0
    ⟨"T", none, UDVariant.struct, [⟨"y", none, DataType.boolean⟩]⟩ rfl rfl

/-! ### Claim C5

Registry growth: throughout one pass, `ctx.schemas` only ever gains keys
(every write is a `dict` insertion), so once a name is registered it keeps
exactly one entry to the end of the pass; a second synthesis request for the
name answers with a `Reference` and leaves the registry untouched. -/

/-- Registered keys only grow, and key distinctness is preserved, across the
struct field loop — given that the field synthesizer has both properties. -/
theorem structFieldsLoop_registry_mono
    (synth : Registry → DataType → Option (SchemaOrRef × Registry))
    (Hsynth : ∀ c d out, synth c d = some out →
      (∀ k, containsKey c k = true → containsKey out.2 k = true) ∧
      (nodupKeys c → nodupKeys out.2)) :
    ∀ (fields : List StoneField) (ctx : Registry) (props : List (String × SchemaOrRef))
      (desc : String) (props' : List (String × SchemaOrRef)) (desc' : String)
      (ctx' : Registry),
      structFieldsLoop synth ctx props desc fields = some (props', desc', ctx') →
      (∀ k, containsKey ctx k = true → containsKey ctx' k = true) ∧
      (nodupKeys ctx → nodupKeys ctx') := by
  intro fields
  induction fields with
  | nil =>
    intro ctx props desc props' desc' ctx' h
    unfold structFieldsLoop at h
    cases h
    exact ⟨fun k hk => hk, id⟩
  | cons f rest ih =>
    intro ctx props desc props' desc' ctx' h
    unfold structFieldsLoop at h
    split at h
    · cases h
    · rename_i property ctx1 heq
      obtain ⟨hm1, hn1⟩ := Hsynth ctx f.dataType _ heq
      obtain ⟨hm2, hn2⟩ := ih ctx1 _ _ _ _ _ h
      exact ⟨fun k hk => hm2 k (hm1 k hk), fun hn => hn2 (hn1 hn)⟩

/-- Registered keys only grow, and key distinctness is preserved, across the
union field loop. -/
theorem unionFieldsLoop_registry_mono
    (synth : Registry → DataType → Option (SchemaOrRef × Registry))
    (Hsynth : ∀ c d out, synth c d = some out →
      (∀ k, containsKey c k = true → containsKey out.2 k = true) ∧
      (nodupKeys c → nodupKeys out.2)) :
    ∀ (fields : List StoneField) (ctx : Registry) (props : List (String × SchemaOrRef))
      (desc : String) (choices : List String) (props' : List (String × SchemaOrRef))
      (desc' : String) (choices' : List String) (ctx' : Registry),
      unionFieldsLoop synth ctx props desc choices fields =
        some (props', desc', choices', ctx') →
      (∀ k, containsKey ctx k = true → containsKey ctx' k = true) ∧
      (nodupKeys ctx → nodupKeys ctx') := by
  intro fields
  induction fields with
  | nil =>
    intro ctx props desc choices props' desc' choices' ctx' h
    unfold unionFieldsLoop at h
    cases h
    exact ⟨fun k hk => hk, id⟩
  | cons f rest ih =>
    intro ctx props desc choices props' desc' choices' ctx' h
    unfold unionFieldsLoop at h
    split at h
    · exact ih ctx _ _ _ _ _ _ _ h
    · split at h
      · cases h
      · rename_i property ctx1 heq
        obtain ⟨hm1, hn1⟩ := Hsynth ctx f.dataType _ heq
        obtain ⟨hm2, hn2⟩ := ih ctx1 _ _ _ _ _ _ _ h
        exact ⟨fun k hk => hm2 k (hm1 k hk), fun hn => hn2 (hn1 hn)⟩

/-- Registered keys only grow, and key distinctness is preserved, by
`_generate_user_defined_schema`. -/
theorem generateUserDefinedSchema_registry_mono
    (synth : Registry → DataType → Option (SchemaOrRef × Registry))
    (Hsynth : ∀ c d out, synth c d = some out →
      (∀ k, containsKey c k = true → containsKey out.2 k = true) ∧
      (nodupKeys c → nodupKeys out.2))
    (ctx : Registry) (ud : UserDefined) (schema : Schema) (ctx' : Registry)
    (h : generateUserDefinedSchema synth ctx ud = some (schema, ctx')) :
    (∀ k, containsKey ctx k = true → containsKey ctx' k = true) ∧
    (nodupKeys ctx → nodupKeys ctx') := by
  unfold generateUserDefinedSchema at h
  split at h
  · unfold generateFromStruct at h
    split at h
    · cases h
    · rename_i props desc ctx1 heq
      cases h
      exact structFieldsLoop_registry_mono synth Hsynth ud.fields ctx [] _ _ _ _ heq
  · unfold generateFromUnion at h
    split at h
    · cases h
    · rename_i props desc choices ctx1 heq
      cases h
      exact unionFieldsLoop_registry_mono synth Hsynth ud.fields ctx [] _ [] _ _ _ _ heq

/-- Registered keys only grow, and key distinctness is preserved, by the
synthesizer: once a name is in the registry it stays, and a `dict` never
holds two entries for one key. -/
theorem generateForDatatype_registry_mono (env : Env) :
    ∀ (fuel : Nat) (dt : DataType) (ctx : Registry) (sr : SchemaOrRef) (ctx' : Registry),
      generateForDatatype env fuel ctx dt = some (sr, ctx') →
      (∀ k, containsKey ctx k = true → containsKey ctx' k = true) ∧
      (nodupKeys ctx → nodupKeys ctx') := by
  intro fuel
  induction fuel using Nat.strong_induction_on with
  | _ fuel IH =>
    intro dt
    induction dt with
    | boolean =>
      intro ctx sr ctx' h
      rw [generateForDatatype] at h
      cases h
      exact ⟨fun k hk => hk, id⟩
    | numeric =>
      intro ctx sr ctx' h
      rw [generateForDatatype] at h
      cases h
      exact ⟨fun k hk => hk, id⟩
    | string_ =>
      intro ctx sr ctx' h
      rw [generateForDatatype] at h
      cases h
      exact ⟨fun k hk => hk, id⟩
    | timestamp =>
      intro ctx sr ctx' h
      rw [generateForDatatype] at h
      cases h
      exact ⟨fun k hk => hk, id⟩
    | void =>
      intro ctx sr ctx' h
      rw [generateForDatatype] at h
      cases h
      exact ⟨fun k hk => hk, id⟩
    | nullable inner ihi =>
      intro ctx sr ctx' h
      rw [generateForDatatype] at h
      exact ihi ctx sr ctx' h
    | list inner ihi =>
      intro ctx sr ctx' h
      rw [generateForDatatype] at h
      split at h
      · cases h
      · rename_i items ctx1 heq
        cases h
        exact ihi ctx _ _ heq
    | user id =>
      intro ctx sr ctx' h
      rw [generateForDatatype] at h
      cases henv : lookupAssoc env id with
      | none => rw [henv] at h; cases h
      | some ud =>
        simp only [henv] at h
        by_cases hreg : containsKey ctx ud.name = true
        · rw [if_pos hreg] at h
          cases h
          exact ⟨fun k hk => hk, fun hn => hn⟩
        · rw [if_neg hreg] at h
          cases fuel with
          | zero => cases h
          | succ n =>
            split at h
            · cases h
            · rename_i fuel0 fuel' hfe
              obtain rfl : n = fuel' := by omega
              split at h
              · cases h
              · rename_i schema ctxM heq
                cases h
                have Hsynth : ∀ c d out, generateForDatatype env n c d = some out →
                    (∀ k, containsKey c k = true → containsKey out.2 k = true) ∧
                    (nodupKeys c → nodupKeys out.2) := by
                  intro c d out hcd
                  exact IH n (Nat.lt_succ_self n) d c out.1 out.2 hcd
                obtain ⟨hm, hn⟩ :=
                  generateUserDefinedSchema_registry_mono _ Hsynth ctx ud schema ctxM heq
                constructor
                · intro k hk
                  rw [containsKey_eq_true_iff, mem_keys_dictInsert]
                  exact Or.inl ((containsKey_eq_true_iff ctxM k).mp (hm k hk))
                · intro hnd
                  exact nodupKeys_dictInsert ctxM ud.name schema (hn hnd)

/-- C5: once a type's name is registered, a second synthesis call for it —
at any fuel — returns a `Reference` to the existing entry (the registry is
not touched, so nothing is copied), the registry holds exactly one entry for
the name, and every further synthesis in the pass keeps it at exactly one
entry. -/
theorem c5_second_synthesis_returns_reference (env : Env) (fuel : Nat) (ctx : Registry)
    (id : Nat) (ud : UserDefined) (henv : lookupAssoc env id = some ud)
    (hreg : containsKey ctx ud.name = true) (hnd : nodupKeys ctx) :
    generateForDatatype env fuel ctx (.user id) =
      some (.ref ("#/definitions/" ++ ud.name), ctx) ∧
    countKey ctx ud.name = 1 ∧
    ∀ dt sr ctx', generateForDatatype env fuel ctx dt = some (sr, ctx') →
      countKey ctx' ud.name = 1 := by
  refine ⟨generateForDatatype_user_hit env fuel ctx id ud henv hreg,
    countKey_eq_one ctx ud.name hnd ((containsKey_eq_true_iff ctx ud.name).mp hreg), ?_⟩
  intro dt sr ctx' h
  obtain ⟨hmono, hndp⟩ := generateForDatatype_registry_mono env fuel dt ctx sr ctx' h
  exact countKey_eq_one ctx' ud.name (hndp hnd)
    ((containsKey_eq_true_iff ctx' ud.name).mp (hmono ud.name hreg))

/-- C5 witness: the theorem applied to a registered type `T5`. -/
theorem c5_witness :
    generateForDatatype [(0, ⟨"T5", none, UDVariant.struct, []⟩)] 2
        [("T5", Schema.mk (some "object") none none (some []) (some "") none none)]
        (.user 0) =
      some (.ref ("#/definitions/" ++ "T5"),
        [("T5", Schema.mk (some "object") none none (some []) (some "") none none)]) ∧
    countKey [("T5", Schema.mk (some "object") none none (some []) (some "") none none)]
      "T5" = 1 := by
  have h := c5_second_synthesis_returns_reference
    [(0, ⟨"T5", none, UDVariant.struct, []⟩)] 2
    [("T5", Schema.mk (some "object") none none (some []) (some "") none none)] 0
    ⟨"T5", none, UDVariant.struct, []⟩ rfl rfl (by unfold nodupKeys; decide)
  exact ⟨h.1, h.2.1⟩

/-! ### Claim C4 -/

/-- What the union field loop of `_generate_from_union` computes: `choices`
receives every field name — Void or not — in declaration order, and the
properties dict is extended by one entry per non-Void field, in declaration
order (given that the incoming field names are distinct and fresh for the
accumulated dict, as the validated IR guarantees). -/
theorem unionFieldsLoop_spec
    (synth : Registry → DataType → Option (SchemaOrRef × Registry)) :
    ∀ (fields : List StoneField) (ctx : Registry) (props : List (String × SchemaOrRef))
      (desc : String) (choices : List String) (props' : List (String × SchemaOrRef))
      (desc' : String) (choices' : List String) (ctx' : Registry),
      unionFieldsLoop synth ctx props desc choices fields =
        some (props', desc', choices', ctx') →
      (fields.map StoneField.name).Nodup →
      (∀ f ∈ fields, f.name ∉ props.map Prod.fst) →
      choices' = choices ++ fields.map StoneField.name ∧
      ∃ extra, props' = props ++ extra ∧
        extra.map Prod.fst =
          (fields.filter (fun f => !isVoidType f.dataType)).map StoneField.name := by
  intro fields
  induction fields with
  | nil =>
    intro ctx props desc choices props' desc' choices' ctx' h hnd hfresh
    unfold unionFieldsLoop at h
    cases h
    exact ⟨by simp, [], by simp, by simp⟩
  | cons f rest ih =>
    intro ctx props desc choices props' desc' choices' ctx' h hnd hfresh
    unfold unionFieldsLoop at h
    simp only [List.map_cons, List.nodup_cons] at hnd
    by_cases hv : isVoidType f.dataType = true
    · rw [if_pos hv] at h
      obtain ⟨hch, extra, hpr, hkeys⟩ :=
        ih _ _ _ _ _ _ _ _ h hnd.2 (fun g hg => hfresh g (List.mem_cons_of_mem _ hg))
      refine ⟨?_, extra, hpr, ?_⟩
      · rw [hch]
        simp
      · rw [hkeys, List.filter_cons]
        simp [hv]
    · rw [if_neg hv] at h
      have hv' : isVoidType f.dataType = false := by simpa using hv
      split at h
      · cases h
      · rename_i property ctx1 heq
        have hf : containsKey props f.name = false :=
          (containsKey_eq_false_iff _ _).mpr (hfresh f (List.mem_cons_self _ _))
        rw [dictInsert_eq_append props f.name _ hf] at h
        have hfresh' : ∀ g ∈ rest, g.name ∉
            (props ++ [(f.name, setDescription property f.doc)]).map Prod.fst := by
          intro g hg
          simp only [List.map_append, List.map_cons, List.map_nil, List.mem_append,
            List.mem_singleton, not_or]
          exact ⟨hfresh g (List.mem_cons_of_mem _ hg),
            fun hc => hnd.1 (hc ▸ List.mem_map_of_mem _ hg)⟩
        obtain ⟨hch, extra, hpr, hkeys⟩ := ih _ _ _ _ _ _ _ _ h hnd.2 hfresh'
        refine ⟨?_, (f.name, setDescription property f.doc) :: extra, ?_, ?_⟩
        · rw [hch]
          simp
        · rw [hpr]
          simp
        · rw [List.filter_cons]
          simp only [hv', Bool.not_false, if_true, List.map_cons]
          rw [← hkeys]

/-- C4: a synthesized Union schema is an object schema with one property per
non-Void field (none for Void fields) in declaration order, plus the
discriminator property under the fixed key `.tag`, a string enum listing ALL
field names — Void and non-Void — in declaration order, titled
`Choice of <union name>`.  (The IR validated upstream guarantees the field
names are distinct identifiers, hence never the reserved `.tag`.) -/
theorem c4_union_discriminator
    (synth : Registry → DataType → Option (SchemaOrRef × Registry)) (ctx : Registry)
    (ud : UserDefined) (s : Schema) (ctx' : Registry)
    (hvar : ud.variant = .union)
    (hnd : (ud.fields.map StoneField.name).Nodup)
    (htag : ".tag" ∉ ud.fields.map StoneField.name)
    (h : generateUserDefinedSchema synth ctx ud = some (s, ctx')) :
    s.type = some "object" ∧
    ∃ props,
      s.properties = some (props ++ [(".tag",
        .schema (.mk (some "string") (some ("Choice of " ++ ud.name)) none none none none
          (some (ud.fields.map StoneField.name))))]) ∧
      props.map Prod.fst =
        (ud.fields.filter (fun f => !isVoidType f.dataType)).map StoneField.name := by
  unfold generateUserDefinedSchema at h
  simp only [hvar] at h
  unfold generateFromUnion at h
  split at h
  · cases h
  · rename_i props0 desc0 choices0 ctx1 heq
    cases h
    obtain ⟨hch, extra, hpr, hkeys⟩ :=
      unionFieldsLoop_spec synth ud.fields ctx [] (descInit ud.doc) [] _ _ _ _ heq hnd
        (by simp)
    simp only [List.nil_append] at hch hpr
    subst hch
    have hsub : ".tag" ∉ extra.map Prod.fst := by
      rw [hkeys]
      intro hx
      obtain ⟨g, hg, hgn⟩ := List.mem_map.mp hx
      exact htag (hgn ▸ List.mem_map_of_mem _ (List.mem_of_mem_filter hg))
    have htagf : containsKey extra ".tag" = false :=
      (containsKey_eq_false_iff _ _).mpr hsub
    refine ⟨rfl, extra, ?_, hkeys⟩
    simp only [Schema.properties]
    rw [hpr, dictInsert_eq_append _ _ _ htagf]

/-- C4 witness: the theorem applied to the spec's example union
`[a: Void, b: Float]`. -/
theorem c4_witness :
    ∃ props,
      (Schema.properties (Schema.mk (some "object") none none
        (some [("b", .schema (.mk (some "number") none none none none none none)),
          (".tag", .schema (.mk (some "string") (some ("Choice of " ++ "U4")) none none
            none none (some ["a", "b"])))])
        (some ("a: None\nb: None\n")) none none)) = some (props ++ [(".tag",
          .schema (.mk (some "string") (some ("Choice of " ++ "U4")) none none none none
            (some ["a", "b"])))]) ∧
      props.map Prod.fst = ["b"] := by
  have hgen : generateUserDefinedSchema (fun c d => generateForDatatype [] 0 c d) []
      ⟨"U4", none, .union, [⟨"a", none, .void⟩, ⟨"b", none, .numeric⟩]⟩ =
      some (Schema.mk (some "object") none none
        (some [("b", .schema (.mk (some "number") none none none none none none)),
          (".tag", .schema (.mk (some "string") (some ("Choice of " ++ "U4")) none none
            none none (some ["a", "b"])))])
        (some ("a: None\nb: None\n")) none none, []) := by
    simp [generateUserDefinedSchema, generateFromUnion, unionFieldsLoop, descInit, pyStr,
      isVoidType, generateForDatatype, generatePrimitiveTypeSchema,
      generatePrimitiveTypeName, setDescription, dictInsert]
  have h := c4_union_discriminator (fun c d => generateForDatatype [] 0 c d) []
    ⟨"U4", none, .union, [⟨"a", none, .void⟩, ⟨"b", none, .numeric⟩]⟩ _ _ rfl
    (by decide) (by decide) hgen
  obtain ⟨hty, props, hp, hk⟩ := h
  exact ⟨props, hp, hk⟩

/-! ### Claim C8 -/

/-- Provenance of every rendered field: `Serializable.dict` emits exactly
the attributes holding a present (non-`None`) value, each under its own key
or — when the `_renames` table names it — under its renamed wire key; an
absent attribute contributes nothing (in particular, no `null`). -/
theorem mem_serializableDict (renames : List (String × Option String)) :
    ∀ (fields : List (String × Option JValue)) (k' : String) (v' : JValue),
      (k', v') ∈ serializableDict renames fields →
      ∃ k, (k, some v') ∈ fields ∧
        (lookupAssoc renames k = some (some k') ∨
          (lookupAssoc renames k = none ∧ k' = k)) := by
  intro fields
  induction fields with
  | nil =>
    intro k' v' h
    simp [serializableDict] at h
  | cons kv rest ih =>
    intro k' v' h
    obtain ⟨k, v?⟩ := kv
    cases v? with
    | none =>
      simp only [serializableDict] at h
      obtain ⟨k0, hk0, hr⟩ := ih k' v' h
      exact ⟨k0, List.mem_cons_of_mem _ hk0, hr⟩
    | some v =>
      cases hlr : lookupAssoc renames k with
      | none =>
        simp only [serializableDict, hlr] at h
        rcases List.mem_cons.mp h with h1 | h1
        · rw [Prod.mk.injEq] at h1
          obtain ⟨hk1, hv1⟩ := h1
          subst hv1
          exact ⟨k, List.mem_cons_self _ _, Or.inr ⟨hlr, hk1⟩⟩
        · obtain ⟨k0, hk0, hr⟩ := ih k' v' h1
          exact ⟨k0, List.mem_cons_of_mem _ hk0, hr⟩
      | some r? =>
        cases r? with
        | none =>
          simp only [serializableDict, hlr] at h
          obtain ⟨k0, hk0, hr⟩ := ih k' v' h
          exact ⟨k0, List.mem_cons_of_mem _ hk0, hr⟩
        | some r =>
          simp only [serializableDict, hlr] at h
          rcases List.mem_cons.mp h with h1 | h1
          · rw [Prod.mk.injEq] at h1
            obtain ⟨hk1, hv1⟩ := h1
            subst hv1
            exact ⟨k, List.mem_cons_self _ _, Or.inl (by rw [hk1]; exact hlr)⟩
          · obtain ⟨k0, hk0, hr⟩ := ih k' v' h1
            exact ⟨k0, List.mem_cons_of_mem _ hk0, hr⟩

/-- C8: rendering rules.  (1) every pair emitted by `Serializable.dict`
stems from an attribute holding a present value — an attribute holding an
absent value is omitted entirely, never rendered as `null`; (2) a
`Parameter` renders its parameter-location attribute under the reserved wire
key `in` — the internal name `inParam` never appears — and, for instance,
an absent description or required flag is omitted; (3) a `Reference`
produced for a data type renders as an object whose single key is `$ref`
with value `#/definitions/<TypeName>`. -/
theorem c8_rendering_rules :
    (∀ (renames : List (String × Option String)) (fields : List (String × Option JValue))
        (k' : String) (v' : JValue),
      (k', v') ∈ serializableDict renames fields →
      ∃ k, (k, some v') ∈ fields ∧
        (lookupAssoc renames k = some (some k') ∨
          (lookupAssoc renames k = none ∧ k' = k))) ∧
    (∀ p : Parameter, ("in", JValue.str p.inParam) ∈ renderParameter p ∧
      "inParam" ∉ (renderParameter p).map Prod.fst ∧
      (p.description = none → "description" ∉ (renderParameter p).map Prod.fst) ∧
      (p.required = none → "required" ∉ (renderParameter p).map Prod.fst)) ∧
    (∀ ud : UserDefined,
      renderSchemaOrRef (generateReferenceForDatatype ud) =
        .obj [("$ref", .str ("#/definitions/" ++ ud.name))]) := by
  refine ⟨mem_serializableDict, ?_, ?_⟩
  · intro p
    obtain ⟨n, i, d, r, s, t⟩ := p
    refine ⟨?_, ?_, ?_, ?_⟩
    · cases d <;> cases r <;> cases s <;> cases t <;>
        simp [renderParameter, serializableDict, lookupAssoc]
    · cases d <;> cases r <;> cases s <;> cases t <;>
        simp [renderParameter, serializableDict, lookupAssoc]
    · intro hd
      cases hd
      cases r <;> cases s <;> cases t <;>
        simp [renderParameter, serializableDict, lookupAssoc]
    · intro hr
      cases hr
      cases d <;> cases s <;> cases t <;>
        simp [renderParameter, serializableDict, lookupAssoc]
  · intro ud
    simp [renderSchemaOrRef, generateReferenceForDatatype]

/-- C8 witness: the three rules applied at concrete entities. -/
theorem c8_witness :
    (∃ k, (k, some (JValue.str "v")) ∈ [("ref", some (JValue.str "v"))] ∧
      (lookupAssoc [("ref", some "$ref")] k = some (some "$ref") ∨
        (lookupAssoc [("ref", some "$ref")] k = none ∧ "$ref" = k))) ∧
    ("in", JValue.str "body") ∈
      renderParameter ⟨"body", "body", none, none, none, none⟩ ∧
    renderSchemaOrRef (generateReferenceForDatatype ⟨"T8", none, .struct, []⟩) =
      .obj [("$ref", .str ("#/definitions/" ++ "T8"))] := by
  refine ⟨?_, ?_, ?_⟩
  · exact c8_rendering_rules.1 [("ref", some "$ref")] [("ref", some (.str "v"))]
      "$ref" (.str "v") (by simp [serializableDict, lookupAssoc])
  · exact (c8_rendering_rules.2.1 ⟨"body", "body", none, none, none, none⟩).1
  · exact c8_rendering_rules.2.2 ⟨"T8", none, .struct, []⟩

/-! ### Claim C10

Nothing in the backend ever assigns a `required` attribute: the synthesized
schemas carry none at any depth, the body parameter's `required` flag is
`None`, and `Serializable.dict` therefore never emits a `required` key for
them. -/

/-- Overwriting a schema's description keeps it `required`-free. -/
theorem setDescription_requiredFree (x : SchemaOrRef) (doc : Option String)
    (h : sorRequiredFree x = true) : sorRequiredFree (setDescription x doc) = true := by
  cases x with
  | ref r => simpa [setDescription] using h
  | schema s =>
    obtain ⟨t, ti, it, pr, de, re, en⟩ := s
    simp only [setDescription, sorRequiredFree, schemaRequiredFree] at h ⊢
    exact h

/-- `required`-freedom of a properties dict, characterized by its values. -/
theorem propertiesRequiredFree_iff :
    ∀ l : List (String × SchemaOrRef),
      propertiesRequiredFree l = true ↔ ∀ kv ∈ l, sorRequiredFree kv.2 = true := by
  intro l
  induction l with
  | nil => simp [propertiesRequiredFree]
  | cons kv rest ih =>
    obtain ⟨k, v⟩ := kv
    simp [propertiesRequiredFree, Bool.and_eq_true, ih, List.forall_mem_cons]

/-- Inserting a `required`-free schema keeps a properties dict
`required`-free. -/
theorem propertiesRequiredFree_dictInsert (l : List (String × SchemaOrRef)) (k : String)
    (v : SchemaOrRef) (hl : propertiesRequiredFree l = true)
    (hv : sorRequiredFree v = true) :
    propertiesRequiredFree (dictInsert l k v) = true := by
  rw [propertiesRequiredFree_iff] at hl ⊢
  intro kv hkv
  rcases mem_dictInsert_val l k v kv hkv with h1 | h1
  · exact hl kv h1
  · rw [h1]
    exact hv

/-- The struct field loop preserves `required`-freedom of the accumulated
properties and of the registry. -/
theorem structFieldsLoop_requiredFree
    (synth : Registry → DataType → Option (SchemaOrRef × Registry))
    (Hsynth : ∀ c d out, registryRequiredFree c → synth c d = some out →
      sorRequiredFree out.1 = true ∧ registryRequiredFree out.2) :
    ∀ (fields : List StoneField) (ctx : Registry) (props : List (String × SchemaOrRef))
      (desc : String) (props' : List (String × SchemaOrRef)) (desc' : String)
      (ctx' : Registry),
      structFieldsLoop synth ctx props desc fields = some (props', desc', ctx') →
      registryRequiredFree ctx → propertiesRequiredFree props = true →
      propertiesRequiredFree props' = true ∧ registryRequiredFree ctx' := by
  intro fields
  induction fields with
  | nil =>
    intro ctx props desc props' desc' ctx' h hreg hprops
    unfold structFieldsLoop at h
    cases h
    exact ⟨hprops, hreg⟩
  | cons f rest ih =>
    intro ctx props desc props' desc' ctx' h hreg hprops
    unfold structFieldsLoop at h
    split at h
    · cases h
    · rename_i property ctx1 heq
      obtain ⟨hq, hreg1⟩ := Hsynth ctx f.dataType _ hreg heq
      exact ih ctx1 _ _ _ _ _ h hreg1
        (propertiesRequiredFree_dictInsert _ _ _ hprops
          (setDescription_requiredFree _ _ hq))

/-- The union field loop preserves `required`-freedom of the accumulated
properties and of the registry. -/
theorem unionFieldsLoop_requiredFree
    (synth : Registry → DataType → Option (SchemaOrRef × Registry))
    (Hsynth : ∀ c d out, registryRequiredFree c → synth c d = some out →
      sorRequiredFree out.1 = true ∧ registryRequiredFree out.2) :
    ∀ (fields : List StoneField) (ctx : Registry) (props : List (String × SchemaOrRef))
      (desc : String) (choices : List String) (props' : List (String × SchemaOrRef))
      (desc' : String) (choices' : List String) (ctx' : Registry),
      unionFieldsLoop synth ctx props desc choices fields =
        some (props', desc', choices', ctx') →
      registryRequiredFree ctx → propertiesRequiredFree props = true →
      propertiesRequiredFree props' = true ∧ registryRequiredFree ctx' := by
  intro fields
  induction fields with
  | nil =>
    intro ctx props desc choices props' desc' choices' ctx' h hreg hprops
    unfold unionFieldsLoop at h
    cases h
    exact ⟨hprops, hreg⟩
  | cons f rest ih =>
    intro ctx props desc choices props' desc' choices' ctx' h hreg hprops
    unfold unionFieldsLoop at h
    split at h
    · exact ih ctx _ _ _ _ _ _ _ h hreg hprops
    · split at h
      · cases h
      · rename_i property ctx1 heq
        obtain ⟨hq, hreg1⟩ := Hsynth ctx f.dataType _ hreg heq
        exact ih ctx1 _ _ _ _ _ _ _ h hreg1
          (propertiesRequiredFree_dictInsert _ _ _ hprops
            (setDescription_requiredFree _ _ hq))

/-- `_generate_user_defined_schema` yields a `required`-free schema and
preserves a `required`-free registry. -/
theorem generateUserDefinedSchema_requiredFree
    (synth : Registry → DataType → Option (SchemaOrRef × Registry))
    (Hsynth : ∀ c d out, registryRequiredFree c → synth c d = some out →
      sorRequiredFree out.1 = true ∧ registryRequiredFree out.2)
    (ctx : Registry) (ud : UserDefined) (schema : Schema) (ctx' : Registry)
    (h : generateUserDefinedSchema synth ctx ud = some (schema, ctx'))
    (hreg : registryRequiredFree ctx) :
    schemaRequiredFree schema = true ∧ registryRequiredFree ctx' := by
  unfold generateUserDefinedSchema at h
  split at h
  · unfold generateFromStruct at h
    split at h
    · cases h
    · rename_i props desc ctx1 heq
      cases h
      obtain ⟨hp, hr⟩ := structFieldsLoop_requiredFree synth Hsynth ud.fields ctx [] _ _ _ _
        heq hreg (by simp [propertiesRequiredFree])
      refine ⟨?_, hr⟩
      simp [schemaRequiredFree, itemsRequiredFree, propertiesOptRequiredFree, hp]
  · unfold generateFromUnion at h
    split at h
    · cases h
    · rename_i props desc choices ctx1 heq
      cases h
      obtain ⟨hp, hr⟩ := unionFieldsLoop_requiredFree synth Hsynth ud.fields ctx [] _ [] _ _
        _ _ heq hreg (by simp [propertiesRequiredFree])
      refine ⟨?_, hr⟩
      have htag : sorRequiredFree (.schema (.mk (some "string")
          (some ("Choice of " ++ ud.name)) none none none none (some choices))) = true := by
        simp [sorRequiredFree, schemaRequiredFree, itemsRequiredFree,
          propertiesOptRequiredFree]
      simp only [schemaRequiredFree, itemsRequiredFree, propertiesOptRequiredFree,
        Option.isNone_none, Bool.true_and]
      exact propertiesRequiredFree_dictInsert _ _ _ hp htag

/-- No schema produced by the synthesizer — nor any schema it stores in the
registry — carries a `required` attribute, at any depth. -/
theorem generateForDatatype_requiredFree (env : Env) :
    ∀ (fuel : Nat) (dt : DataType) (ctx : Registry) (sr : SchemaOrRef) (ctx' : Registry),
      registryRequiredFree ctx →
      generateForDatatype env fuel ctx dt = some (sr, ctx') →
      sorRequiredFree sr = true ∧ registryRequiredFree ctx' := by
  intro fuel
  induction fuel using Nat.strong_induction_on with
  | _ fuel IH =>
    intro dt
    induction dt with
    | boolean =>
      intro ctx sr ctx' hreg h
      rw [generateForDatatype] at h
      cases h
      exact ⟨by simp [generatePrimitiveTypeSchema, sorRequiredFree, schemaRequiredFree,
        itemsRequiredFree, propertiesOptRequiredFree], hreg⟩
    | numeric =>
      intro ctx sr ctx' hreg h
      rw [generateForDatatype] at h
      cases h
      exact ⟨by simp [generatePrimitiveTypeSchema, sorRequiredFree, schemaRequiredFree,
        itemsRequiredFree, propertiesOptRequiredFree], hreg⟩
    | string_ =>
      intro ctx sr ctx' hreg h
      rw [generateForDatatype] at h
      cases h
      exact ⟨by simp [generatePrimitiveTypeSchema, sorRequiredFree, schemaRequiredFree,
        itemsRequiredFree, propertiesOptRequiredFree], hreg⟩
    | timestamp =>
      intro ctx sr ctx' hreg h
      rw [generateForDatatype] at h
      cases h
      exact ⟨by simp [generatePrimitiveTypeSchema, sorRequiredFree, schemaRequiredFree,
        itemsRequiredFree, propertiesOptRequiredFree], hreg⟩
    | void =>
      intro ctx sr ctx' hreg h
      rw [generateForDatatype] at h
      cases h
      exact ⟨by simp [generatePrimitiveTypeSchema, sorRequiredFree, schemaRequiredFree,
        itemsRequiredFree, propertiesOptRequiredFree], hreg⟩
    | nullable inner ihi =>
      intro ctx sr ctx' hreg h
      rw [generateForDatatype] at h
      exact ihi ctx sr ctx' hreg h
    | list inner ihi =>
      intro ctx sr ctx' hreg h
      rw [generateForDatatype] at h
      split at h
      · cases h
      · rename_i items ctx1 heq
        cases h
        obtain ⟨hq, hr⟩ := ihi ctx _ _ hreg heq
        refine ⟨?_, hr⟩
        simp [sorRequiredFree, schemaRequiredFree, itemsRequiredFree,
          propertiesOptRequiredFree, hq]
    | user id =>
      intro ctx sr ctx' hreg h
      rw [generateForDatatype] at h
      cases henv : lookupAssoc env id with
      | none => rw [henv] at h; cases h
      | some ud =>
        simp only [henv] at h
        by_cases hit : containsKey ctx ud.name = true
        · rw [if_pos hit] at h
          cases h
          exact ⟨by simp [generateReferenceForDatatype, sorRequiredFree], hreg⟩
        · rw [if_neg hit] at h
          cases fuel with
          | zero => cases h
          | succ n =>
            split at h
            · cases h
            · rename_i fuel0 fuel' hfe
              obtain rfl : n = fuel' := by omega
              split at h
              · cases h
              · rename_i schema ctxM heq
                cases h
                have Hsynth : ∀ c d out, registryRequiredFree c →
                    generateForDatatype env n c d = some out →
                    sorRequiredFree out.1 = true ∧ registryRequiredFree out.2 := by
                  intro c d out hc hcd
                  exact IH n (Nat.lt_succ_self n) d c out.1 out.2 hc hcd
                obtain ⟨hschema, hregM⟩ :=
                  generateUserDefinedSchema_requiredFree _ Hsynth ctx ud schema ctxM heq hreg
                refine ⟨by simp [generateReferenceForDatatype, sorRequiredFree], ?_⟩
                intro kv hkv
                rcases mem_dictInsert_val _ _ _ kv hkv with h1 | h1
                · exact hregM kv h1
                · rw [h1]
                  exact hschema

/-- A `required`-free schema renders with no top-level `required` key (and
since `required`-freedom is hereditary, every nested schema node it contains
also satisfies this statement). -/
theorem renderSchema_no_required_key (s : Schema) (hrf : schemaRequiredFree s = true) :
    "required" ∉ (renderSchema s).map Prod.fst := by
  obtain ⟨t, ti, it, pr, de, re, en⟩ := s
  simp only [schemaRequiredFree, Bool.and_eq_true, Option.isNone_iff_eq_none] at hrf
  obtain ⟨⟨hre, hit⟩, hpr⟩ := hrf
  subst hre
  intro hmem
  obtain ⟨kv, hkv, hfst⟩ := List.mem_map.mp hmem
  obtain ⟨k0, v0⟩ := kv
  simp only at hfst
  subst hfst
  simp only [renderSchema] at hkv
  obtain ⟨k, hk, hr⟩ := mem_serializableDict [] _ "required" v0 hkv
  have hkreq : k = "required" := by
    rcases hr with hr1 | hr2
    · simp [lookupAssoc] at hr1
    · exact hr2.2.symm
  subst hkreq
  simp at hk

/-- A parameter whose `required` flag is absent renders with no `required`
key. -/
theorem renderParameter_no_required_key (p : Parameter) (h : p.required = none) :
    "required" ∉ (renderParameter p).map Prod.fst := by
  obtain ⟨n, i, d, r, s, t⟩ := p
  simp only at h
  subst h
  cases d <;> cases s <;> cases t <;>
    simp [renderParameter, serializableDict, lookupAssoc]

/-- C10: no `required` attribute anywhere.  (1) the generated parameter list
always begins with the body parameter, whose `required` flag is `None` and
whose rendering therefore carries no `required` key; (2) for every input
`DataType` — nullable fields included — every synthesized schema and every
schema deposited in the registry is `required`-free at every depth (struct
and union object schemas in particular contain no required-field list); and
(3) a `required`-free schema renders with no `required` key. -/
theorem c10_no_required_attribute :
    (∀ (env : Env) (fuel : Nat) (ctx : Registry)
        (rockParams : Option (List (String × String))) (route : ApiRoute) (fqPath : String)
        (params : List ParameterOrRef) (ctx' : Registry),
      generateParameters env fuel ctx rockParams route fqPath = some (params, ctx') →
      ∃ schema extras,
        params = .param ⟨"body", "body", none, none, some schema, none⟩ :: extras ∧
        (⟨"body", "body", none, none, some schema, none⟩ : Parameter).required = none ∧
        "required" ∉
          (renderParameter ⟨"body", "body", none, none, some schema, none⟩).map Prod.fst) ∧
    (∀ (env : Env) (fuel : Nat) (dt : DataType) (ctx : Registry) (sr : SchemaOrRef)
        (ctx' : Registry),
      registryRequiredFree ctx →
      generateForDatatype env fuel ctx dt = some (sr, ctx') →
      sorRequiredFree sr = true ∧ registryRequiredFree ctx') ∧
    (∀ s : Schema, schemaRequiredFree s = true →
      "required" ∉ (renderSchema s).map Prod.fst) := by
  refine ⟨?_, fun env => generateForDatatype_requiredFree env, renderSchema_no_required_key⟩
  intro env fuel ctx rockParams route fqPath params ctx' h
  unfold generateParameters at h
  split at h
  · cases h
  · rename_i schema ctx1 heq
    cases h
    exact ⟨schema, _, rfl, rfl,
      renderParameter_no_required_key ⟨"body", "body", none, none, some schema, none⟩ rfl⟩

/-- C10 witness: the three parts applied at a concrete Void-argument route,
a concrete synthesis, and a concrete schema. -/
theorem c10_witness :
    (∃ schema extras,
      ([ParameterOrRef.param ⟨"body", "body", none, none,
          some (SchemaOrRef.schema (Schema.mk (some "null") none none none none none none)),
          none⟩] : List ParameterOrRef) =
        .param ⟨"body", "body", none, none, some schema, none⟩ :: extras ∧
      (⟨"body", "body", none, none, some schema, none⟩ : Parameter).required = none ∧
      "required" ∉
        (renderParameter ⟨"body", "body", none, none, some schema, none⟩).map Prod.fst) ∧
    (sorRequiredFree (.schema (.mk (some "null") none none none none none none)) = true ∧
      registryRequiredFree ([] : Registry)) ∧
    "required" ∉
      (renderSchema (.mk (some "null") none none none none none none)).map Prod.fst := by
  refine ⟨?_, ?_, ?_⟩
  · have hgp : generateParameters [] 0 [] none ⟨"r", none, .void, .void, .void⟩ "/ns/r" =
        some ([.param ⟨"body", "body", none, none,
          some (.schema (.mk (some "null") none none none none none none)), none⟩], []) := by
      simp [generateParameters, generateForDatatype, generatePrimitiveTypeSchema,
        generatePrimitiveTypeName]
    exact c10_no_required_attribute.1 [] 0 [] none ⟨"r", none, .void, .void, .void⟩
      "/ns/r" _ _ hgp
  · have hgen : generateForDatatype [] 0 [] .void =
        some (.schema (.mk (some "null") none none none none none none), []) := by
      simp [generateForDatatype, generatePrimitiveTypeSchema, generatePrimitiveTypeName]
    exact c10_no_required_attribute.2.1 [] 0 .void [] _ _
      (by intro kv hkv; cases hkv) hgen
  · exact c10_no_required_attribute.2.2 (.mk (some "null") none none none none none none)
      (by simp [schemaRequiredFree, itemsRequiredFree, propertiesOptRequiredFree])

end Stone
